import Mathlib

/-!
Verification development for the CMU universal-domain-adaptation training script
(examples/domain_adaptation/universal_domain_adaptation/cmu.py).

Real-valued tensors are modelled as lists of rationals (the float literals of
the script become exact rationals).  Operations of the numerical framework that
can produce non-finite values or raise (division by a zero denominator, mean of
an empty tensor) are modelled as Option-valued, with none standing for the
non-finite/raising outcome.
-/

namespace Cmu

/-- Maximum of a list of rationals; torch Tensor.max() on a nonempty tensor.
The empty case never occurs in the script (drop_last=True, batch_size >= 1). -/
def listMax : List ℚ → ℚ
  | [] => 0
  | x :: xs => xs.foldl max x

/-- Minimum of a list of rationals; torch Tensor.min() on a nonempty tensor. -/
def listMin : List ℚ → ℚ
  | [] => 0
  | x :: xs => xs.foldl min x

/-- Modelled from the spec: the static score normalization `norm` imported from
tllib.alignment.cmu (cmu.py line 25); that module is not under src/.  Per spec
section 4.1 it rescales a full pass of scores by (x - min x)/(max x - min x) and
guards the all-equal case (max = min) by returning the constant 1/2. -/
def norm (xs : List ℚ) : List ℚ :=
  if listMax xs = listMin xs then xs.map (fun _ => (1 : ℚ)/2)
  else xs.map (fun x => (x - listMin xs) / (listMax xs - listMin xs))

/-- Per-sample combined scores of a one-shot pass (cmu.py lines 318-320 and
473-475): each statistic is normalized over the whole pass, then combined as
(marginal_confidence + 1 - entropy) / 2. -/
def staticScores (mcs ents : List ℚ) : List ℚ :=
  List.zipWith (fun m e => (m + 1 - e) / 2) (norm mcs) (norm ents)

/-- The running score bounds (target_score_upper, target_score_lower). -/
structure TrainState where
  upper : ℚ
  lower : ℚ
deriving DecidableEq, Repr

/-- Bound update of cmu.py lines 371-372: bound * 0.01 + extreme * 0.99. -/
def updateBound (b v : ℚ) : ℚ := b * (1/100) + v * (99/100)

/-- Raw combined target scores of one training iteration (cmu.py line 370),
from the per-sample (marginal confidence, entropy) of the frozen ensemble:
w_t = (marginal_confidence + 1 - entropy) / 2, with no per-statistic
normalization. -/
def rawScores (batch : List (ℚ × ℚ)) : List ℚ :=
  batch.map (fun p => (p.1 + 1 - p.2) / 2)

/-- One training iteration's target-weight computation, cmu.py lines 364-373:
update both running bounds with the batch extremes, then normalize the combined
scores against the updated bounds.  The division at line 373 has no guard; when
upper - lower = 0 torch emits non-finite values, modelled as none. -/
def trainTargetWeights (st : TrainState) (batch : List (ℚ × ℚ)) :
    TrainState × Option (List ℚ) :=
  let w := rawScores batch
  let u := updateBound st.upper (listMax w)
  let l := updateBound st.lower (listMin w)
  (⟨u, l⟩, if u - l = 0 then none else some (w.map (fun x => (x - l) / (u - l))))

/-- The reading of claim C2 for the training loop, stated for comparison with
trainTargetWeights: each statistic separately normalized against the running
bounds before combining (the spec formula (normalize(mc) + 1 - normalize(ent))/2
applied with the running-bounds normalization). -/
def claimSeparateTrainWeights (st : TrainState) (batch : List (ℚ × ℚ)) :
    TrainState × Option (List ℚ) :=
  let w := rawScores batch
  let u := updateBound st.upper (listMax w)
  let l := updateBound st.lower (listMin w)
  (⟨u, l⟩, if u - l = 0 then none
   else some (batch.map (fun p => ((p.1 - l) / (u - l) + 1 - (p.2 - l) / (u - l)) / 2)))

/-- Effect of one AdversarialStage epoch (one call of train, cmu.py lines
352-373) on the bounds that are local to that call: the per-iteration updates
chain across the iterations of the call. -/
def trainEpoch (st : TrainState) (batches : List (List (ℚ × ℚ))) : TrainState :=
  batches.foldl (fun s b => (trainTargetWeights s b).1) st

/-- The bound pair main holds when it calls train for epoch e (cmu.py lines
195-196 and 209-212).  train receives the tensors, but lines 371-372 rebind the
local names to fresh tensors (the arithmetic is out of place) and train returns
None, so the caller's pair is never updated: every epoch's call receives the
initial (0, 0). -/
def mainBoundsBeforeEpoch (epochBatches : List (List (List (ℚ × ℚ)))) (e : ℕ) :
    TrainState :=
  (epochBatches.take e).foldl (fun st _ => st) ⟨0, 0⟩

/-- One sample of the calc_source_class_weight pass: the per-sample ensemble
statistics and the softmax class-probability vector of the main head
(cmu.py lines 305-316). -/
structure CalcSample where
  mc : ℚ
  ent : ℚ
  output : List ℚ
deriving DecidableEq, Repr, Inhabited

/-- Combined scores of the calc_source_class_weight pass, cmu.py lines 318-320:
the per-batch statistic tensors are appended and concatenated (join) and each
statistic is static-normalized over the whole pass before combining. -/
def calcAllScores (batches : List (List CalcSample)) : List ℚ :=
  staticScores ((batches.flatten).map CalcSample.mc) ((batches.flatten).map CalcSample.ent)

/-- Row selection of cmu.py line 323: all_output[all_score >= args.src_threshold]
keeps exactly the output rows whose aligned combined score reaches the
threshold. -/
def selectedOutputs (batches : List (List CalcSample)) (t : ℚ) : List (List ℚ) :=
  (((batches.flatten).zip (calcAllScores batches)).filter (fun p => t ≤ p.2)).map
    (fun p => p.1.output)

/-- torch Tensor.mean(dim=0): the column-wise mean of the stacked rows; the mean
of an empty stack is NaN, modelled as none. -/
def colMean (rows : List (List ℚ)) : Option (List ℚ) :=
  match rows with
  | [] => none
  | r :: rs =>
      some ((List.range r.length).map (fun j =>
        (((r :: rs).map (fun row => row.getD j 0)).sum) / (((r :: rs).length : ℚ))))

/-- calc_source_class_weight, cmu.py lines 295-326: mean of the selected softmax
rows, then static normalization of the resulting class-weight vector. -/
def calc_source_class_weight (batches : List (List CalcSample)) (t : ℚ) :
    Option (List ℚ) :=
  (colMean (selectedOutputs batches t)).map norm

/-- cmu.py line 200 in main: (source_class_weight > args.cut).float(), the
binary cut mask over the class-weight vector.  The comparison is total: on the
NaN-propagated weight vector of an empty selection, the IEEE comparison
NaN > cut is False for every entry, so line 200 yields a finite all-zeros mask
of class-count width (the width of the softmax rows) rather than propagating
the NaN. -/
def sourceClassWeightMask (batches : List (List CalcSample)) (t cut : ℚ) :
    List ℚ :=
  match calc_source_class_weight batches t with
  | some ws => ws.map (fun w => if cut < w then (1 : ℚ) else 0)
  | none => List.replicate (((batches.flatten).headD default).output.length) 0

/-- One sample of the validate pass: ensemble statistics, the argmax prediction
of the main head, and the ground-truth label (cmu.py lines 457-471). -/
structure ValSample where
  mc : ℚ
  ent : ℚ
  pred : ℕ
  label : ℕ
deriving DecidableEq, Repr, Inhabited

/-- Combined scores of the validate pass, cmu.py lines 473-475. -/
def valAllScores (batches : List (List ValSample)) : List ℚ :=
  staticScores ((batches.flatten).map ValSample.mc) ((batches.flatten).map ValSample.ent)

/-- cmu.py line 483: all_predictions[all_score < args.threshold] = unknown_class,
with unknown_class = num_classes (line 480). -/
def finalPredictions (batches : List (List ValSample)) (K : ℕ) (t : ℚ) : List ℕ :=
  List.zipWith (fun s p => if s < t then K else p) (valAllScores batches)
    ((batches.flatten).map ValSample.pred)

/-- cmu.py line 484: all_labels[all_labels >= unknown_class] = unknown_class. -/
def finalLabels (batches : List (List ValSample)) (K : ℕ) : List ℕ :=
  (batches.flatten).map (fun s => if K ≤ s.label then K else s.label)

/-- Modelled from the spec: ConfusionMatrix from tllib.utils.metric (imported at
cmu.py line 29, not under src/).  Per spec section 3 it is an n x n integer
matrix counting (label, prediction) pairs, here with n = K + 1 at line 481. -/
def confusionMatrix (n : ℕ) (labels preds : List ℕ) : List (List ℕ) :=
  (List.range n).map (fun r => (List.range n).map (fun c =>
    ((labels.zip preds).filter (fun p => p.1 == r && p.2 == c)).length))

/-- The confusion matrix accumulated by validate, cmu.py lines 480-485. -/
def valConfMat (batches : List (List ValSample)) (K : ℕ) (t : ℚ) : List (List ℕ) :=
  confusionMatrix (K + 1) (finalLabels batches K) (finalPredictions batches K t)

/-- Modelled from the spec: the per-class accuracies returned by
ConfusionMatrix.compute (tllib.utils.metric, not under src/).  Per spec section
4.7, per-class accuracy = diagonal / row-sum; a row-sum of zero is taken as
accuracy 0 (no claim depends on that case). -/
def perClassAcc (m : List (List ℕ)) : List ℚ :=
  (List.range m.length).map (fun r =>
    let row := m.getD r []
    if row.sum = 0 then 0 else ((row.getD r 0 : ℚ) / ((row.sum : ℚ))))

/-- Summary metrics of validate, cmu.py lines 487-491: known accuracy (mean of
the first num_common_classes per-class accuracies, times 100), unknown accuracy
(last per-class accuracy, times 100), and the H-score
2 * known * unknown / (known + unknown).  The final division is a Python float
division and raises ZeroDivisionError when known + unknown = 0; that outcome is
modelled as none. -/
def validateMetrics (batches : List (List ValSample)) (K ncc : ℕ) (t : ℚ) :
    ℚ × ℚ × Option ℚ :=
  let accs := perClassAcc (valConfMat batches K t)
  let known := ((accs.take ncc).sum / (((accs.take ncc).length : ℚ))) * 100
  let unknown := accs.getD K 0 * 100
  (known, unknown,
    if known + unknown = 0 then none
    else some (2 * known * unknown / (known + unknown)))

/-- Configuration fields of the script that the wiring claims depend on. -/
structure Args where
  source : String
  target : String
  epochs_pretrain : ℕ
  epochs : ℕ
  iters_per_epoch : ℕ
deriving DecidableEq, Repr

/-- Domain selector of tllib.vision.datasets.universal: universal(dataset,
source=True) yields the source-domain dataset family, source=False the
target-domain one (cmu.py lines 105-106). -/
inductive Domain
  | source
  | target
deriving DecidableEq, Repr

/-- A constructed dataset: which domain family it came from and which task
identifier (args.source / args.target) it loads. -/
structure DatasetCfg where
  domain : Domain
  task : String
deriving DecidableEq, Repr

/-- cmu.py line 107. -/
def train_source_dataset (a : Args) : DatasetCfg := ⟨Domain.source, a.source⟩

/-- cmu.py line 108. -/
def train_target_dataset (a : Args) : DatasetCfg := ⟨Domain.target, a.target⟩

/-- cmu.py line 111: val_dataset = target_dataset(root, task=args.target, ...). -/
def val_dataset (a : Args) : DatasetCfg := ⟨Domain.target, a.target⟩

/-- cmu.py line 199: calc_source_class_weight is called on val_loader, the
loader built over val_dataset (line 124). -/
def calcWeightDataset (a : Args) : DatasetCfg := val_dataset a

/-- Order-of-operations events of main's train phase. -/
inductive Event
  | pretrainEpoch (e : ℕ)
  | initBounds
  | calcWeight (d : DatasetCfg) (gradEnabled : Bool)
  | advIter (epoch iter : ℕ)
  | refreshHead (epoch head : ℕ)
  | validateEpoch (e : ℕ)
deriving DecidableEq, Repr

/-- The sequential control flow of main's train phase, cmu.py lines 164-219:
pretrain epochs, initialization of the bound tensors (lines 195-196), the
one-shot weighting pass (line 199, inside torch.no_grad() at line 304, hence
gradEnabled = false), then per epoch the adversarial iterations, the five
ensemble refresh loops and the validation pass. -/
def mainTrace (a : Args) : List Event :=
  ((List.range a.epochs_pretrain).map Event.pretrainEpoch) ++
    Event.initBounds ::
      Event.calcWeight (calcWeightDataset a) false ::
        (((List.range a.epochs).map (fun e =>
            ((List.range a.iters_per_epoch).map (Event.advIter e)) ++
            ((List.range 5).map (Event.refreshHead e)) ++
            [Event.validateEpoch e])).flatten)

/-- Recognizer for the weighting-pass event. -/
def isCalcEvent : Event → Bool
  | Event.calcWeight _ _ => true
  | _ => false

/-- Recognizer for an AdversarialStage iteration event. -/
def isAdvEvent : Event → Bool
  | Event.advIter _ _ => true
  | _ => false

/-- cmu.py lines 184-185: a single SGD optimizer built over the parameters of
all five ensemble heads.  Optimizer objects are modelled by identifiers. -/
def ensOptimizerId : ℕ := 0

/-- cmu.py line 186: ens_lr_scheduler = [LambdaLR(ens_optimizer, lr_lambda)] * 5.
Python list repetition stores five references to the one LambdaLR object, which
is modelled by identifier 0 into a step-count store. -/
def ensSchedulerId : ℕ := 0

/-- The five-entry scheduler list of cmu.py line 186. -/
def ens_lr_scheduler : List ℕ := List.replicate 5 ensSchedulerId

/-- scheduler.step() (cmu.py line 440): advances the step count of the one
scheduler object it is called on. -/
def stepSched (store : ℕ → ℕ) (sid : ℕ) : ℕ → ℕ :=
  fun j => if j = sid then store j + 1 else store j

/-- train_ens_classifier, cmu.py lines 407-443: the refresh loop for one head
runs `iters` iterations, stepping its scheduler once per iteration. -/
def runRefreshLoop (iters : ℕ) (sid : ℕ) (store : ℕ → ℕ) : ℕ → ℕ :=
  (fun s => stepSched s sid)^[iters] store

/-- cmu.py lines 214-216: the per-epoch refresh calls; head i is trained with
ens_optimizer and ens_lr_scheduler[i]. -/
def refreshCallArgs : List (ℕ × ℕ) :=
  (List.range 5).map (fun i => (ensOptimizerId, ens_lr_scheduler.getD i 0))

/-- One full refresh epoch, cmu.py lines 214-216 with the loop bound
iters_per_epoch // 2 of line 421: the five refresh loops run in sequence, each
for iters_per_epoch / 2 steps on its list entry's scheduler. -/
def refreshEpoch (iters_per_epoch : ℕ) (store : ℕ → ℕ) : ℕ → ℕ :=
  (List.range 5).foldl
    (fun st i => runRefreshLoop (iters_per_epoch / 2) (ens_lr_scheduler.getD i 0) st)
    store

/-! Helper lemmas about the embedding. -/

lemma length_norm (xs : List ℚ) : (norm xs).length = xs.length := by
  unfold norm
  split <;> simp

lemma length_staticScores (mcs ents : List ℚ) :
    (staticScores mcs ents).length = min mcs.length ents.length := by
  simp [staticScores, List.length_zipWith, length_norm]

lemma getD_zipWith (f : ℚ → ℚ → ℚ) (d da db : ℚ) :
    ∀ (as bs : List ℚ) (i : ℕ), i < as.length → i < bs.length →
      (List.zipWith f as bs).getD i d = f (as.getD i da) (bs.getD i db)
  | [], _, i, hi, _ => absurd hi (by simp)
  | _ :: _, [], i, _, hj => absurd hj (by simp)
  | a :: as, b :: bs, 0, _, _ => rfl
  | a :: as, b :: bs, i + 1, hi, hj => by
      simpa using getD_zipWith f d da db as bs i (by simpa using hi) (by simpa using hj)

lemma getD_zipWith_nat (f : ℚ → ℕ → ℕ) (d : ℕ) (da : ℚ) (db : ℕ) :
    ∀ (as : List ℚ) (bs : List ℕ) (i : ℕ), i < as.length → i < bs.length →
      (List.zipWith f as bs).getD i d = f (as.getD i da) (bs.getD i db)
  | [], _, i, hi, _ => absurd hi (by simp)
  | _ :: _, [], i, _, hj => absurd hj (by simp)
  | a :: as, b :: bs, 0, _, _ => rfl
  | a :: as, b :: bs, i + 1, hi, hj => by
      simpa using getD_zipWith_nat f d da db as bs i (by simpa using hi) (by simpa using hj)

lemma getD_map' {α β : Type} (f : α → β) (d : β) (da : α) :
    ∀ (l : List α) (i : ℕ), i < l.length →
      (l.map f).getD i d = f (l.getD i da)
  | [], i, hi => absurd hi (by simp)
  | a :: l, 0, _ => rfl
  | a :: l, i + 1, hi => by
      simpa using getD_map' f d da l i (by simpa using hi)

lemma getD_range_map {α : Type} (f : ℕ → α) (n j : ℕ) (d : α) (h : j < n) :
    ((List.range n).map f).getD j d = f j := by
  rw [List.getD_eq_getElem?_getD, List.getElem?_map, List.getElem?_range h]
  rfl

lemma findIdx_append_false {α : Type} (p : α → Bool) :
    ∀ (l₁ l₂ : List α), (∀ x ∈ l₁, p x = false) →
      (l₁ ++ l₂).findIdx p = l₁.length + l₂.findIdx p
  | [], l₂, _ => by simp
  | a :: l₁, l₂, h => by
      have ha : p a = false := h a (by simp)
      have ih := findIdx_append_false p l₁ l₂ (fun x hx => h x (by simp [hx]))
      simp [List.findIdx_cons, ha, ih]
      omega

lemma iterate_stepSched (sid : ℕ) :
    ∀ (k : ℕ) (store : ℕ → ℕ) (j : ℕ),
      ((fun s => stepSched s sid)^[k] store) j =
        if j = sid then store j + k else store j
  | 0, store, j => by simp
  | k + 1, store, j => by
      rw [Function.iterate_succ_apply']
      rcases eq_or_ne j sid with h | h
      · simp [stepSched, h, iterate_stepSched sid k store, Nat.add_assoc]
      · simp [stepSched, h, iterate_stepSched sid k store]

lemma map_const_eq_replicate {α β : Type} (c : β) :
    ∀ (l : List α), l.map (fun _ => c) = List.replicate l.length c
  | [] => rfl
  | a :: l => by simp [List.replicate, map_const_eq_replicate c l]

/-! Claim theorems. -/

/-- C1 (code_bug, evaluated at the failing input): with two AdversarialStage
epochs of one iteration each and epoch-0 target batch statistics
[(1/2, 1/2), (3/10, 7/10)] (combined scores 0.5 and 0.3), the bounds after the
last iteration of epoch 0 are (0.495, 0.297), but the bounds visible at the
first iteration of epoch 1 are the initial (0, 0): train never writes its
updated bounds back to main, so the running bounds are reset at every epoch
start, contradicting the claimed cross-epoch persistence. -/
theorem bounds_reset_each_epoch_eval :
    mainBoundsBeforeEpoch [[[(1/2, 1/2), (3/10, 7/10)]], [[(1/2, 1/2)]]] 1 = ⟨0, 0⟩ ∧
    trainEpoch (mainBoundsBeforeEpoch [[[(1/2, 1/2), (3/10, 7/10)]], [[(1/2, 1/2)]]] 0)
        [[(1/2, 1/2), (3/10, 7/10)]] = ⟨99/200, 297/1000⟩ ∧
    mainBoundsBeforeEpoch [[[(1/2, 1/2), (3/10, 7/10)]], [[(1/2, 1/2)]]] 1 ≠
      trainEpoch (mainBoundsBeforeEpoch [[[(1/2, 1/2), (3/10, 7/10)]], [[(1/2, 1/2)]]] 0)
        [[(1/2, 1/2), (3/10, 7/10)]] := by
  refine ⟨rfl, ?_, ?_⟩
  · norm_num [trainEpoch, trainTargetWeights, rawScores, listMax, listMin,
      updateBound, max_def, min_def, mainBoundsBeforeEpoch, TrainState.mk.injEq]
  · norm_num [trainEpoch, trainTargetWeights, rawScores, listMax, listMin,
      updateBound, max_def, min_def, mainBoundsBeforeEpoch, TrainState.mk.injEq]

/-- C2 counterexample: inside the training loop the code's per-sample weight
(normalize the combined raw score) differs, at the concrete first-iteration
batch [(0.8, 0.1), (0.2, 0.9)] with initial bounds (0, 0), from the claim's
formula (normalize each statistic separately, then combine): the code yields
[1403/1386, 1/462] while the separate-normalization reading yields
[1393/1386, -1/198]. -/
theorem train_score_not_separately_normalized_cex :
    (trainTargetWeights ⟨0, 0⟩ [(4/5, 1/10), (1/5, 9/10)]).2 =
      some [1403/1386, 1/462] ∧
    (claimSeparateTrainWeights ⟨0, 0⟩ [(4/5, 1/10), (1/5, 9/10)]).2 =
      some [1393/1386, -1/198] ∧
    (trainTargetWeights ⟨0, 0⟩ [(4/5, 1/10), (1/5, 9/10)]).2 ≠
      (claimSeparateTrainWeights ⟨0, 0⟩ [(4/5, 1/10), (1/5, 9/10)]).2 := by
  refine ⟨?_, ?_, ?_⟩ <;>
    norm_num [trainTargetWeights, claimSeparateTrainWeights, rawScores, listMax,
      listMin, updateBound, max_def, min_def]

/-- C2 (amended): in the one-shot passes the combined score is
(norm(mc) + 1 - norm(ent)) / 2 with each statistic static-normalized
separately, while in the AdversarialStage training loop the raw statistics are
combined first as (mc + 1 - ent) / 2 and only that combined score is normalized
against the updated running bounds. -/
theorem score_combination_contexts :
    (∀ (mcs ents : List ℚ) (i : ℕ), i < mcs.length → i < ents.length →
      (staticScores mcs ents).getD i 0 =
        ((norm mcs).getD i 0 + 1 - (norm ents).getD i 0) / 2) ∧
    (∀ (st : TrainState) (batch : List (ℚ × ℚ)) (ws : List ℚ) (j : ℕ),
      (trainTargetWeights st batch).2 = some ws → j < batch.length →
      ws.getD j 0 =
        ((rawScores batch).getD j 0 -
            updateBound st.lower (listMin (rawScores batch))) /
          (updateBound st.upper (listMax (rawScores batch)) -
            updateBound st.lower (listMin (rawScores batch)))) := by
  constructor
  · intro mcs ents i hi hj
    exact getD_zipWith _ 0 0 0 (norm mcs) (norm ents) i
      (by rwa [length_norm]) (by rwa [length_norm])
  · intro st batch ws j hsome hj
    simp only [trainTargetWeights] at hsome
    by_cases hc : updateBound st.upper (listMax (rawScores batch)) -
        updateBound st.lower (listMin (rawScores batch)) = 0
    · rw [if_pos hc] at hsome
      exact absurd hsome (by simp)
    · rw [if_neg hc] at hsome
      simp only [Option.some.injEq] at hsome
      subst hsome
      rw [getD_map' _ 0 0 (rawScores batch) j (by simpa [rawScores] using hj)]

/-- C2 witness: the two context equations of score_combination_contexts
instantiated at concrete inputs. -/
theorem score_combination_contexts_witness :
    ((staticScores [1, 0] [0, 1]).getD 0 0 =
      ((norm [1, 0]).getD 0 0 + 1 - (norm [0, 1]).getD 0 0) / 2) ∧
    (([1403/1386, (1 : ℚ)/462].getD 0 0) =
      ((rawScores [(4/5, 1/10), (1/5, 9/10)]).getD 0 0 -
          updateBound 0 (listMin (rawScores [(4/5, 1/10), (1/5, 9/10)]))) /
        (updateBound 0 (listMax (rawScores [(4/5, 1/10), (1/5, 9/10)])) -
          updateBound 0 (listMin (rawScores [(4/5, 1/10), (1/5, 9/10)])))) :=
  ⟨score_combination_contexts.1 [1, 0] [0, 1] 0 (by simp) (by simp),
   score_combination_contexts.2 ⟨0, 0⟩ [(4/5, 1/10), (1/5, 9/10)]
     [1403/1386, 1/462] 0
     (by norm_num [trainTargetWeights, rawScores, listMax, listMin, updateBound,
        max_def, min_def])
     (by simp)⟩

/-- C4 counterexample: at the very first training iteration on a batch whose
combined scores are all equal (single sample (1/2, 1/2), combined score 1/2),
the updated running bounds coincide (both 99/200) and the unguarded division of
line 373 divides by zero, producing a non-finite result (none) instead of a
constant finite value. -/
theorem running_norm_unguarded_cex :
    (trainTargetWeights ⟨0, 0⟩ [(1/2, 1/2)]).1 = ⟨99/200, 99/200⟩ ∧
    (trainTargetWeights ⟨0, 0⟩ [(1/2, 1/2)]).2 = none := by
  constructor <;>
    norm_num [trainTargetWeights, rawScores, listMax, listMin, updateBound,
      TrainState.mk.injEq]

/-- C4 (amended): the static per-pass normalization (spec-modelled, with its
guard) returns the constant 1/2 whenever max = min, but the running
normalization of the training loop has no guard: whenever the updated upper and
lower bounds coincide it divides by zero and yields a non-finite result
(none). -/
theorem normalization_guard_status :
    (∀ xs : List ℚ, listMax xs = listMin xs →
      norm xs = List.replicate xs.length (1/2)) ∧
    (∀ (st : TrainState) (batch : List (ℚ × ℚ)),
      (trainTargetWeights st batch).1.upper = (trainTargetWeights st batch).1.lower →
      (trainTargetWeights st batch).2 = none) := by
  constructor
  · intro xs h
    rw [norm, if_pos h, map_const_eq_replicate]
  · intro st batch h
    simp only [trainTargetWeights] at h ⊢
    rw [if_pos (by rw [h, sub_self])]

/-- C4 witness: both halves of normalization_guard_status at concrete inputs:
the all-equal list [2/3, 2/3] and the single-sample batch (1/2, 1/4). -/
theorem normalization_guard_status_witness :
    (listMax [2/3, 2/3] = listMin [2/3, 2/3] ∧
      norm [2/3, 2/3] = List.replicate 2 (1/2)) ∧
    (trainTargetWeights ⟨0, 0⟩ [(1/2, 1/4)]).2 = none := by
  have h1 : listMax [(2 : ℚ)/3, 2/3] = listMin [(2 : ℚ)/3, 2/3] := by
    norm_num [listMax, listMin, max_def, min_def]
  refine ⟨⟨h1, normalization_guard_status.1 [2/3, 2/3] h1⟩, ?_⟩
  exact normalization_guard_status.2 ⟨0, 0⟩ [(1/2, 1/4)]
    (by norm_num [trainTargetWeights, rawScores, listMax, listMin, updateBound])

/-- C5 counterexample: the exact recurrence applied to the claimed inputs gives
upper_2 = 0.01 * 0.495 + 0.99 * 0.9 = 0.89595, not the claimed 0.8905. -/
theorem upper_sequence_literal_cex :
    updateBound (updateBound 0 (1/2)) (9/10) = 17919/20000 ∧
    (17919/20000 : ℚ) ≠ 1781/2000 := by
  constructor
  · norm_num [updateBound]
  · norm_num

/-- C5 (amended): the training iteration updates both bounds exactly by
bound' = 0.01 * bound + 0.99 * extreme, and iterating the upper recurrence from
0 on the batch maxima 0.5, 0.9, 0.2 yields exactly 0.495, 0.89595,
0.2069595. -/
theorem running_bound_recurrence :
    (∀ (st : TrainState) (batch : List (ℚ × ℚ)), batch ≠ [] →
      (trainTargetWeights st batch).1 =
        ⟨updateBound st.upper (listMax (rawScores batch)),
         updateBound st.lower (listMin (rawScores batch))⟩) ∧
    List.scanl updateBound 0 [1/2, 9/10, 1/5] =
      [0, 99/200, 17919/20000, 413919/2000000] := by
  constructor
  · intro st batch _
    rfl
  · norm_num [List.scanl, updateBound]

/-- C5 witness: the recurrence part of running_bound_recurrence at the concrete
nonempty batch [(2/5, 1/5)] with initial bounds (0, 0). -/
theorem running_bound_recurrence_witness :
    ([((2 : ℚ)/5, (1 : ℚ)/5)] ≠ ([] : List (ℚ × ℚ))) ∧
    (trainTargetWeights ⟨0, 0⟩ [(2/5, 1/5)]).1 =
      ⟨updateBound 0 (listMax (rawScores [(2/5, 1/5)])),
       updateBound 0 (listMin (rawScores [(2/5, 1/5)]))⟩ :=
  ⟨by simp, running_bound_recurrence.1 ⟨0, 0⟩ [(2/5, 1/5)] (by simp)⟩

/-- C6 (confirmed): when at least one sample's static-normalized combined score
reaches src_threshold, the source class weight vector is the static
normalization of the column-wise mean of exactly the selected samples' softmax
vectors, and the binary mask is 1 exactly where the normalized weight is
strictly greater than cut, so a weight equal to cut maps to 0. -/
theorem source_class_weight_mean_and_cut :
    ∀ (batches : List (List CalcSample)) (t cut : ℚ),
      selectedOutputs batches t ≠ [] →
      ∃ w : List ℚ,
        calc_source_class_weight batches t = some (norm w) ∧
        w.length = ((selectedOutputs batches t).headD []).length ∧
        (∀ j, j < w.length →
          w.getD j 0 =
            (((selectedOutputs batches t).map (fun r => r.getD j 0)).sum) /
              (((selectedOutputs batches t).length : ℚ))) ∧
        sourceClassWeightMask batches t cut =
          (norm w).map (fun x => if cut < x then 1 else 0) ∧
        (if cut < cut then (1 : ℚ) else 0) = 0 := by
  intro batches t cut h
  obtain ⟨r, rs, hsel⟩ : ∃ r rs, selectedOutputs batches t = r :: rs := by
    cases hsel : selectedOutputs batches t with
    | nil => exact absurd hsel h
    | cons r rs => exact ⟨r, rs, rfl⟩
  refine ⟨(List.range r.length).map (fun j =>
      (((r :: rs).map (fun row => row.getD j 0)).sum) / (((r :: rs).length : ℚ))),
    ?_, ?_, ?_, ?_, ?_⟩
  · rw [calc_source_class_weight, hsel]
    rfl
  · simp [hsel]
  · intro j hj
    rw [getD_range_map _ _ _ _ (by simpa using hj), hsel]
  · rw [sourceClassWeightMask, calc_source_class_weight, hsel]
    rfl
  · simp

/-- C6 witness: the characterization of source_class_weight_mean_and_cut at a
concrete three-sample pass where exactly two samples reach the threshold
2/5. -/
theorem source_class_weight_mean_and_cut_witness :
    selectedOutputs [[⟨1, 0, [7/10, 3/10]⟩, ⟨0, 1, [1/2, 1/2]⟩,
        ⟨1/2, 1/2, [9/10, 1/10]⟩]] (2/5) ≠ [] ∧
    (∃ w : List ℚ,
      calc_source_class_weight [[⟨1, 0, [7/10, 3/10]⟩, ⟨0, 1, [1/2, 1/2]⟩,
          ⟨1/2, 1/2, [9/10, 1/10]⟩]] (2/5) = some (norm w) ∧
      w.length = ((selectedOutputs [[⟨1, 0, [7/10, 3/10]⟩, ⟨0, 1, [1/2, 1/2]⟩,
          ⟨1/2, 1/2, [9/10, 1/10]⟩]] (2/5)).headD []).length ∧
      (∀ j, j < w.length →
        w.getD j 0 =
          (((selectedOutputs [[⟨1, 0, [7/10, 3/10]⟩, ⟨0, 1, [1/2, 1/2]⟩,
              ⟨1/2, 1/2, [9/10, 1/10]⟩]] (2/5)).map (fun r => r.getD j 0)).sum) /
            (((selectedOutputs [[⟨1, 0, [7/10, 3/10]⟩, ⟨0, 1, [1/2, 1/2]⟩,
              ⟨1/2, 1/2, [9/10, 1/10]⟩]] (2/5)).length : ℚ))) ∧
      sourceClassWeightMask [[⟨1, 0, [7/10, 3/10]⟩, ⟨0, 1, [1/2, 1/2]⟩,
          ⟨1/2, 1/2, [9/10, 1/10]⟩]] (2/5) (1/10) =
        (norm w).map (fun x => if (1 : ℚ)/10 < x then 1 else 0) ∧
      (if (1 : ℚ)/10 < 1/10 then (1 : ℚ) else 0) = 0) := by
  have hne : selectedOutputs [[⟨1, 0, [7/10, 3/10]⟩, ⟨0, 1, [1/2, 1/2]⟩,
      ⟨1/2, 1/2, [9/10, 1/10]⟩]] ((2 : ℚ)/5) ≠ [] := by
    norm_num [selectedOutputs, calcAllScores, staticScores, norm, listMax,
      listMin, max_def, min_def, List.filter]
    simp
  exact ⟨hne, source_class_weight_mean_and_cut _ _ (1/10) hne⟩

/-- C7 counterexample: at a concrete pass where no sample's combined score
reaches the threshold 3/5 (both scores are 1/2), the selection is empty and
calc_source_class_weight silently yields the NaN-propagated result (none):
there is no fallback and no explicit failure. -/
theorem empty_selection_nan_cex :
    selectedOutputs [[⟨0, 0, [1, 0]⟩, ⟨1, 1, [0, 1]⟩]] (3/5) = [] ∧
    calc_source_class_weight [[⟨0, 0, [1, 0]⟩, ⟨1, 1, [0, 1]⟩]] (3/5) = none := by
  have hsel : selectedOutputs [[⟨0, 0, [1, 0]⟩, ⟨1, 1, [0, 1]⟩]] ((3 : ℚ)/5) = [] := by
    norm_num [selectedOutputs, calcAllScores, staticScores, norm, listMax,
      listMin, max_def, min_def, List.filter]
  exact ⟨hsel, by rw [calc_source_class_weight, hsel]; rfl⟩

/-- C7 (amended): whenever no sample's combined score reaches src_threshold,
SourceClassWeighter performs no explicit handling: calc_source_class_weight
takes the mean of an empty tensor and silently produces NaN-propagated class
weights (none), with no fallback and no explicit failure. -/
theorem empty_selection_propagates_nan :
    ∀ (batches : List (List CalcSample)) (t : ℚ),
      selectedOutputs batches t = [] →
      calc_source_class_weight batches t = none := by
  intro batches t h
  rw [calc_source_class_weight, h]
  rfl

/-- C7 witness: empty_selection_propagates_nan at a concrete two-sample pass
with threshold 7/10 where both combined scores are 1/2. -/
theorem empty_selection_propagates_nan_witness :
    selectedOutputs [[⟨0, 0, [1]⟩, ⟨1, 1, [0]⟩]] (7/10) = [] ∧
    calc_source_class_weight [[⟨0, 0, [1]⟩, ⟨1, 1, [0]⟩]] (7/10) = none := by
  have hsel : selectedOutputs [[⟨0, 0, [1]⟩, ⟨1, 1, [0]⟩]] ((7 : ℚ)/10) = [] := by
    norm_num [selectedOutputs, calcAllScores, staticScores, norm, listMax,
      listMin, max_def, min_def, List.filter]
  exact ⟨hsel, empty_selection_propagates_nan _ _ hsel⟩

/-- C8 (confirmed): before the confusion matrix is updated, every sample whose
combined score is below the threshold has its prediction overwritten to the
unknown index K (the known class count), regardless of the argmax prediction;
every label at least K is remapped to K; and the accumulated confusion matrix
has K + 1 rows, each of length K + 1. -/
theorem validate_unknown_remap :
    ∀ (batches : List (List ValSample)) (K : ℕ) (t : ℚ) (i : ℕ),
      i < (batches.flatten).length →
      ((finalPredictions batches K t).getD i 0 =
        if (valAllScores batches).getD i 0 < t then K
        else ((batches.flatten).getD i default).pred) ∧
      ((finalLabels batches K).getD i 0 =
        if K ≤ ((batches.flatten).getD i default).label then K
        else ((batches.flatten).getD i default).label) ∧
      (valConfMat batches K t).length = K + 1 ∧
      (∀ row ∈ valConfMat batches K t, row.length = K + 1) := by
  intro batches K t i hi
  have hlen : (valAllScores batches).length = (batches.flatten).length := by
    rw [valAllScores, length_staticScores, List.length_map, List.length_map,
      min_self]
  refine ⟨?_, ?_, ?_, ?_⟩
  · rw [finalPredictions,
      getD_zipWith_nat _ 0 0 0 (valAllScores batches)
        ((batches.flatten).map ValSample.pred) i (by rw [hlen]; exact hi)
        (by rw [List.length_map]; exact hi),
      getD_map' ValSample.pred 0 default (batches.flatten) i hi]
  · rw [finalLabels, getD_map' _ 0 default (batches.flatten) i hi]
  · simp [valConfMat, confusionMatrix]
  · intro row hrow
    simp only [valConfMat, confusionMatrix, List.mem_map] at hrow
    obtain ⟨r, _, rfl⟩ := hrow
    simp

/-- C8 witness: validate_unknown_remap at index 0 of a concrete two-sample pass
with K = 1: the first sample's score is 1, at least the threshold 7/10, so the
keep branch of the prediction conditional and the label conditional are
exercised, together with the (K+1) x (K+1) shape facts. -/
theorem validate_unknown_remap_witness :
    (0 < ([[⟨1, 0, 0, 0⟩, ⟨0, 1, 0, 5⟩]] :
        List (List ValSample)).flatten.length) ∧
    (((finalPredictions [[⟨1, 0, 0, 0⟩, ⟨0, 1, 0, 5⟩]] 1 (7/10)).getD 0 0 =
        if (valAllScores [[⟨1, 0, 0, 0⟩, ⟨0, 1, 0, 5⟩]]).getD 0 0 < 7/10 then 1
        else ((([[⟨1, 0, 0, 0⟩, ⟨0, 1, 0, 5⟩]] :
          List (List ValSample)).flatten).getD 0 default).pred) ∧
      ((finalLabels [[⟨1, 0, 0, 0⟩, ⟨0, 1, 0, 5⟩]] 1).getD 0 0 =
        if 1 ≤ ((([[⟨1, 0, 0, 0⟩, ⟨0, 1, 0, 5⟩]] :
            List (List ValSample)).flatten).getD 0 default).label then 1
        else ((([[⟨1, 0, 0, 0⟩, ⟨0, 1, 0, 5⟩]] :
          List (List ValSample)).flatten).getD 0 default).label) ∧
      (valConfMat [[⟨1, 0, 0, 0⟩, ⟨0, 1, 0, 5⟩]] 1 (7/10)).length = 1 + 1 ∧
      (∀ row ∈ valConfMat [[⟨1, 0, 0, 0⟩, ⟨0, 1, 0, 5⟩]] 1 (7/10),
        row.length = 1 + 1)) :=
  ⟨by simp, validate_unknown_remap [[⟨1, 0, 0, 0⟩, ⟨0, 1, 0, 5⟩]] 1 (7/10) 0 (by simp)⟩

/-- C9 counterexample: at a concrete pass with K = 1 and num_common_classes = 1
where the known-class sample is pushed below the threshold (score 0, predicted
unknown) and the unknown-class sample keeps prediction 0, both accuracies are
zero and the unguarded division 2*known*unknown/(known+unknown) divides by
zero: the H-score computation fails (none) instead of yielding a defined
value. -/
theorem h_score_zero_division_cex :
    validateMetrics [[⟨0, 1, 0, 0⟩, ⟨1, 0, 0, 5⟩]] 1 1 (7/10) = (0, 0, none) := by
  have hpred : finalPredictions [[⟨0, 1, 0, 0⟩, ⟨1, 0, 0, 5⟩]] 1 (7/10) = [1, 0] := by
    norm_num [finalPredictions, valAllScores, staticScores, norm, listMax,
      listMin, max_def, min_def, List.zipWith]
  have hlab : finalLabels [[⟨0, 1, 0, 0⟩, ⟨1, 0, 0, 5⟩]] 1 = [0, 1] := by decide
  have hmat : valConfMat [[⟨0, 1, 0, 0⟩, ⟨1, 0, 0, 5⟩]] 1 (7/10) = [[0, 1], [1, 0]] := by
    rw [valConfMat, hpred, hlab]
    decide
  have hacc : perClassAcc [[0, 1], [1, 0]] = [0, 0] := by
    norm_num [perClassAcc, List.range_succ, List.range_zero, List.getD]
  dsimp only [validateMetrics]
  rw [hmat, hacc]
  norm_num [List.getD]

/-- C9 (amended): the H-score of validate equals
2 * known * unknown / (known + unknown) whenever known + unknown is nonzero,
but the division is not guarded: when both accuracies are zero the computation
fails (none) instead of yielding a defined value. -/
theorem h_score_formula_and_guard :
    ∀ (batches : List (List ValSample)) (K ncc : ℕ) (t : ℚ),
      ((validateMetrics batches K ncc t).1 + (validateMetrics batches K ncc t).2.1 ≠ 0 →
        (validateMetrics batches K ncc t).2.2 =
          some (2 * (validateMetrics batches K ncc t).1 *
              (validateMetrics batches K ncc t).2.1 /
            ((validateMetrics batches K ncc t).1 +
              (validateMetrics batches K ncc t).2.1))) ∧
      ((validateMetrics batches K ncc t).1 + (validateMetrics batches K ncc t).2.1 = 0 →
        (validateMetrics batches K ncc t).2.2 = none) := by
  intro batches K ncc t
  constructor
  · intro h
    dsimp only [validateMetrics] at h ⊢
    rw [if_neg h]
  · intro h
    dsimp only [validateMetrics] at h ⊢
    rw [if_pos h]

/-- C9 witness: h_score_formula_and_guard at a concrete pass where both
accuracies are 100, so the H-score is defined. -/
theorem h_score_formula_and_guard_witness :
    ((validateMetrics [[⟨1, 0, 0, 0⟩, ⟨0, 1, 0, 7⟩]] 1 1 (7/10)).1 +
        (validateMetrics [[⟨1, 0, 0, 0⟩, ⟨0, 1, 0, 7⟩]] 1 1 (7/10)).2.1 ≠ 0) ∧
    ((validateMetrics [[⟨1, 0, 0, 0⟩, ⟨0, 1, 0, 7⟩]] 1 1 (7/10)).2.2 =
      some (2 * (validateMetrics [[⟨1, 0, 0, 0⟩, ⟨0, 1, 0, 7⟩]] 1 1 (7/10)).1 *
          (validateMetrics [[⟨1, 0, 0, 0⟩, ⟨0, 1, 0, 7⟩]] 1 1 (7/10)).2.1 /
        ((validateMetrics [[⟨1, 0, 0, 0⟩, ⟨0, 1, 0, 7⟩]] 1 1 (7/10)).1 +
          (validateMetrics [[⟨1, 0, 0, 0⟩, ⟨0, 1, 0, 7⟩]] 1 1 (7/10)).2.1))) := by
  have hv : validateMetrics [[⟨1, 0, 0, 0⟩, ⟨0, 1, 0, 7⟩]] 1 1 ((7 : ℚ)/10) =
      (100, 100, some 100) := by
    have hpred : finalPredictions [[⟨1, 0, 0, 0⟩, ⟨0, 1, 0, 7⟩]] 1 (7/10) = [0, 1] := by
      norm_num [finalPredictions, valAllScores, staticScores, norm, listMax,
        listMin, max_def, min_def, List.zipWith]
    have hlab : finalLabels [[⟨1, 0, 0, 0⟩, ⟨0, 1, 0, 7⟩]] 1 = [0, 1] := by decide
    have hmat : valConfMat [[⟨1, 0, 0, 0⟩, ⟨0, 1, 0, 7⟩]] 1 (7/10) = [[1, 0], [0, 1]] := by
      rw [valConfMat, hpred, hlab]
      decide
    have hacc : perClassAcc [[1, 0], [0, 1]] = [1, 1] := by
      norm_num [perClassAcc, List.range_succ, List.range_zero, List.getD]
    dsimp only [validateMetrics]
    rw [hmat, hacc]
    norm_num [List.getD]
  have h : (validateMetrics [[⟨1, 0, 0, 0⟩, ⟨0, 1, 0, 7⟩]] 1 1 ((7 : ℚ)/10)).1 +
      (validateMetrics [[⟨1, 0, 0, 0⟩, ⟨0, 1, 0, 7⟩]] 1 1 ((7 : ℚ)/10)).2.1 ≠ 0 := by
    rw [hv]
    norm_num
  exact ⟨h, (h_score_formula_and_guard [[⟨1, 0, 0, 0⟩, ⟨0, 1, 0, 7⟩]] 1 1 (7/10)).1 h⟩

/-- C3 counterexample: at the concrete configuration source = "A",
target = "W", the dataset fed to calc_source_class_weight is not a
source-domain set: val_loader is built over the target-domain validation
dataset of task "W". -/
theorem calc_weight_domain_cex :
    (calcWeightDataset ⟨"A", "W", 5, 30, 200⟩).domain ≠ Domain.source ∧
    calcWeightDataset ⟨"A", "W", 5, 30, 200⟩ = ⟨Domain.target, "W"⟩ := by
  decide

/-- C3 (amended): for every configuration, the one-shot weighting pass runs
over the target-domain validation dataset (task args.target), with gradient
computation disabled, it sits in main's trace right after the pretrain epochs
and the bounds initialization and strictly before every AdversarialStage
iteration, and it scores every sample of every batch of its loader. -/
theorem calc_weight_pass_order_and_domain :
    ∀ a : Args,
      calcWeightDataset a = ⟨Domain.target, a.target⟩ ∧
      (mainTrace a).findIdx isCalcEvent = a.epochs_pretrain + 1 ∧
      (mainTrace a).findIdx isCalcEvent < (mainTrace a).findIdx isAdvEvent ∧
      (mainTrace a).getD ((mainTrace a).findIdx isCalcEvent) Event.initBounds =
        Event.calcWeight ⟨Domain.target, a.target⟩ false ∧
      ∀ batches : List (List CalcSample),
        (calcAllScores batches).length = (batches.map List.length).sum := by
  intro a
  have hP1 : ∀ x ∈ (List.range a.epochs_pretrain).map Event.pretrainEpoch,
      isCalcEvent x = false := by
    intro x hx
    obtain ⟨e, _, rfl⟩ := List.mem_map.1 hx
    rfl
  have hP2 : ∀ x ∈ (List.range a.epochs_pretrain).map Event.pretrainEpoch,
      isAdvEvent x = false := by
    intro x hx
    obtain ⟨e, _, rfl⟩ := List.mem_map.1 hx
    rfl
  have hlenP : ((List.range a.epochs_pretrain).map Event.pretrainEpoch).length =
      a.epochs_pretrain := by
    simp
  have h1 : isCalcEvent Event.initBounds = false := rfl
  have h2 : isCalcEvent (Event.calcWeight (calcWeightDataset a) false) = true := rfl
  have h3 : isAdvEvent Event.initBounds = false := rfl
  have h4 : isAdvEvent (Event.calcWeight (calcWeightDataset a) false) = false := rfl
  have hCalc : (mainTrace a).findIdx isCalcEvent = a.epochs_pretrain + 1 := by
    rw [mainTrace, findIdx_append_false _ _ _ hP1, hlenP]
    simp [List.findIdx_cons, h1, h2]
  have hAdv : a.epochs_pretrain + 1 < (mainTrace a).findIdx isAdvEvent := by
    rw [mainTrace, findIdx_append_false _ _ _ hP2, hlenP]
    simp [List.findIdx_cons, h3, h4]
  have hget : (mainTrace a).getD (a.epochs_pretrain + 1) Event.initBounds =
      Event.calcWeight ⟨Domain.target, a.target⟩ false := by
    rw [mainTrace, List.getD_eq_getElem?_getD,
      List.getElem?_append_right (by rw [hlenP]; omega), hlenP]
    simp [calcWeightDataset, val_dataset]
  refine ⟨rfl, hCalc, ?_, ?_, ?_⟩
  · rw [hCalc]
    exact hAdv
  · rw [hCalc]
    exact hget
  · intro batches
    rw [calcAllScores, length_staticScores, List.length_map, List.length_map,
      min_self, List.length_flatten]

/-- C10 helper: one refresh epoch advances the shared scheduler's step count by
five times half the iteration count. -/
lemma refreshEpoch_apply (n : ℕ) (store : ℕ → ℕ) :
    refreshEpoch n store ensSchedulerId = store ensSchedulerId + 5 * (n / 2) := by
  have hrep : ens_lr_scheduler = [0, 0, 0, 0, 0] := rfl
  have h5 : List.range 5 = [0, 1, 2, 3, 4] := rfl
  rw [refreshEpoch, h5, hrep]
  simp only [List.foldl, runRefreshLoop, List.getD_cons_zero, List.getD_cons_succ,
    ensSchedulerId, iterate_stepSched]
  simp
  omega

/-- C10 (confirmed): the five refresh loops of one EnsembleRefreshStage epoch
share one optimizer and one scheduler object: the scheduler list holds five
references to the same LambdaLR, every call receives the same
(optimizer, scheduler) pair, and after one full refresh epoch the shared
schedule has advanced 5 * (iters_per_epoch / 2) steps. -/
theorem ensemble_refresh_shared_schedule :
    ∀ n : ℕ,
      ens_lr_scheduler = List.replicate 5 ensSchedulerId ∧
      refreshCallArgs = List.replicate 5 (ensOptimizerId, ensSchedulerId) ∧
      refreshEpoch n (fun _ => 0) ensSchedulerId = 5 * (n / 2) := by
  intro n
  refine ⟨rfl, by decide, ?_⟩
  rw [refreshEpoch_apply]
  omega

end Cmu
